import Mathlib

/-!
Verification of the blueprint JSON package (`src/json/blueprint.go`).

The Go code decodes blueprint documents with `encoding/json`.  We embed the
wire level faithfully: a `Jval` model of JSON values, a byte-level JSON
parser mirroring Go's scanner (Go's `json.Unmarshal` first validates the
whole input syntactically, then decodes), and decoders that follow the Go
decoder's documented semantics: JSON `null` is a no-op when decoded into a
string field, unknown object members are skipped, object keys are matched
against field tags case-insensitively, and the first conversion error is
saved while decoding continues.
-/

set_option maxRecDepth 8000

namespace json

/-- Model of a parsed JSON value.  Numbers keep their source literal (this
development never interprets them numerically, which also keeps the model
exact about what bytes produced the value). -/
inductive Jval where
  | null
  | bool (b : Bool)
  | num (lit : String)
  | str (s : String)
  | arr (elems : List Jval)
  | obj (members : List (String × Jval))

/-- JSON whitespace, per RFC 8259 and Go's scanner. -/
def isWs (c : Char) : Bool :=
  c = ' ' || c = '\t' || c = '\n' || c = '\r'

/-- Drop leading JSON whitespace. -/
def skipWs : List Char → List Char
  | [] => []
  | c :: cs => if isWs c then skipWs cs else c :: cs

/-- Value of a hexadecimal digit. -/
def hexVal (c : Char) : Option Nat :=
  if '0' ≤ c ∧ c ≤ '9' then some (c.toNat - '0'.toNat)
  else if 'a' ≤ c ∧ c ≤ 'f' then some (c.toNat - 'a'.toNat + 10)
  else if 'A' ≤ c ∧ c ≤ 'F' then some (c.toNat - 'A'.toNat + 10)
  else none

/-- Read four hexadecimal digits. -/
def hex4 : List Char → Option (Nat × List Char)
  | a :: b :: c :: d :: rest => do
    let x ← hexVal a
    let y ← hexVal b
    let z ← hexVal c
    let w ← hexVal d
    pure ((((x * 16 + y) * 16 + z) * 16 + w), rest)
  | _ => none

/-- Turn a code point into a character; invalid scalar values become the
replacement character U+FFFD, as Go's decoder does for bad escapes. -/
def codeToChar (n : Nat) : Char :=
  if n.isValidChar then Char.ofNat n else '�'

/-- Scan a JSON string body (the opening quote is already consumed),
handling the escape sequences of RFC 8259.  A lone or malformed surrogate
escape yields U+FFFD, mirroring Go's decoder.  Control characters are
syntax errors.  Returns the decoded string and the remaining input. -/
def scanJString : Nat → List Char → List Char → Option (String × List Char)
  | 0, _, _ => none
  | _ + 1, [], _ => none
  | fuel + 1, c :: cs, acc =>
    if c = '"' then some (String.mk acc.reverse, cs)
    else if c = '\\' then
      match cs with
      | [] => none
      | e :: cs1 =>
        if e = '"' ∨ e = '\\' ∨ e = '/' then scanJString fuel cs1 (e :: acc)
        else if e = 'b' then scanJString fuel cs1 ('\x08' :: acc)
        else if e = 'f' then scanJString fuel cs1 ('\x0C' :: acc)
        else if e = 'n' then scanJString fuel cs1 ('\n' :: acc)
        else if e = 'r' then scanJString fuel cs1 ('\r' :: acc)
        else if e = 't' then scanJString fuel cs1 ('\t' :: acc)
        else if e = 'u' then
          match hex4 cs1 with
          | none => none
          | some (n, cs2) =>
            if 0xD800 ≤ n ∧ n < 0xDC00 then
              match cs2 with
              | '\\' :: 'u' :: cs3 =>
                match hex4 cs3 with
                | some (m, cs4) =>
                  if 0xDC00 ≤ m ∧ m < 0xE000 then
                    scanJString fuel cs4
                      (codeToChar (0x10000 + (n - 0xD800) * 0x400 + (m - 0xDC00)) :: acc)
                  else scanJString fuel cs2 ('�' :: acc)
                | none => scanJString fuel cs2 ('�' :: acc)
              | _ => scanJString fuel cs2 ('�' :: acc)
            else if 0xDC00 ≤ n ∧ n < 0xE000 then scanJString fuel cs2 ('�' :: acc)
            else scanJString fuel cs2 (codeToChar n :: acc)
        else none
    else if c.toNat < 0x20 then none
    else scanJString fuel cs (c :: acc)

/-- Take a maximal run of decimal digits. -/
def takeDigits : List Char → List Char × List Char
  | [] => ([], [])
  | c :: cs =>
    if c.isDigit then
      let (d, r) := takeDigits cs
      (c :: d, r)
    else ([], c :: cs)

/-- Scan an optional fraction part. -/
def scanFrac (cs : List Char) : Option (List Char × List Char) :=
  match cs with
  | '.' :: r =>
    match takeDigits r with
    | ([], _) => none
    | (d, r1) => some ('.' :: d, r1)
  | _ => some ([], cs)

/-- Scan an optional exponent part. -/
def scanExp (cs : List Char) : Option (List Char × List Char) :=
  match cs with
  | c :: r =>
    if c = 'e' ∨ c = 'E' then
      let (sgn, r1) :=
        match r with
        | '+' :: r2 => (['+'], r2)
        | '-' :: r2 => (['-'], r2)
        | _ => (([] : List Char), r)
      match takeDigits r1 with
      | ([], _) => none
      | (d, r2) => some (c :: (sgn ++ d), r2)
    else some ([], cs)
  | [] => some ([], [])

/-- Scan a JSON number literal (RFC 8259 grammar, as Go's scanner accepts
it) and return its exact source text. -/
def scanNumber (cs : List Char) : Option (String × List Char) :=
  let (sgn, cs1) :=
    match cs with
    | '-' :: r => (['-'], r)
    | _ => (([] : List Char), cs)
  let intPart : Option (List Char × List Char) :=
    match cs1 with
    | '0' :: r => some (['0'], r)
    | c :: r =>
      if c.isDigit then
        let (d, r1) := takeDigits r
        some (c :: d, r1)
      else none
    | [] => none
  match intPart with
  | none => none
  | some (ip, r1) =>
    match scanFrac r1 with
    | none => none
    | some (fp, r2) =>
      match scanExp r2 with
      | none => none
      | some (ep, r3) => some (String.mk (sgn ++ ip ++ fp ++ ep), r3)

/-- Work items of the recursive-descent JSON parser: a value, the members
of an object (after the opening brace, first key next), or the elements of
an array (after the opening bracket, first element next). -/
inductive PTask where
  | value (cs : List Char)
  | members (cs : List Char) (acc : List (String × Jval))
  | elems (cs : List Char) (acc : List Jval)

/-- Fuel-driven JSON parser.  Each recursive call consumes at least one
input character before the next, so fuel `length + 1` always suffices.
Structural recursion on the fuel keeps every equation definitional, so
concrete documents evaluate by `rfl`. -/
def parseF : Nat → PTask → Option (Jval × List Char)
  | 0, _ => none
  | fuel + 1, .value cs =>
    match skipWs cs with
    | [] => none
    | c :: rest =>
      if c = '\x7b' then
        match skipWs rest with
        | '\x7d' :: r => some (.obj [], r)
        | r => parseF fuel (.members r [])
      else if c = '[' then
        match skipWs rest with
        | ']' :: r => some (.arr [], r)
        | r => parseF fuel (.elems r [])
      else if c = '"' then
        match scanJString (rest.length + 1) rest [] with
        | some (s, r) => some (.str s, r)
        | none => none
      else if c = 't' then
        match rest with
        | 'r' :: 'u' :: 'e' :: r => some (.bool true, r)
        | _ => none
      else if c = 'f' then
        match rest with
        | 'a' :: 'l' :: 's' :: 'e' :: r => some (.bool false, r)
        | _ => none
      else if c = 'n' then
        match rest with
        | 'u' :: 'l' :: 'l' :: r => some (.null, r)
        | _ => none
      else
        match scanNumber (c :: rest) with
        | some (lit, r) => some (.num lit, r)
        | none => none
  | fuel + 1, .members cs acc =>
    match cs with
    | '"' :: rest =>
      match scanJString (rest.length + 1) rest [] with
      | none => none
      | some (k, r1) =>
        match skipWs r1 with
        | ':' :: r2 =>
          match parseF fuel (.value r2) with
          | none => none
          | some (v, r3) =>
            match skipWs r3 with
            | ',' :: r4 => parseF fuel (.members (skipWs r4) ((k, v) :: acc))
            | '\x7d' :: r4 => some (.obj ((k, v) :: acc).reverse, r4)
            | _ => none
        | _ => none
    | _ => none
  | fuel + 1, .elems cs acc =>
    match parseF fuel (.value cs) with
    | none => none
    | some (v, r1) =>
      match skipWs r1 with
      | ',' :: r2 => parseF fuel (.elems r2 (v :: acc))
      | ']' :: r2 => some (.arr (v :: acc).reverse, r2)
      | _ => none

/-- Error values surfaced by the embedded decoders.  `invalidJson` models
Go's `*json.SyntaxError` (carrying the offending document), `typeErr`
models `*json.UnmarshalTypeError` (a description of the wire value and the
Go type it would not fit), and `malformedEnum` models the error built by
`TargetState.UnmarshalJSON` with `fmt.Errorf`, which embeds the offending
raw bytes and wraps the underlying cause. -/
inductive JsonErr where
  | invalidJson (doc : String)
  | typeErr (valueDesc : String) (goType : String)
  | malformedEnum (raw : String) (cause : JsonErr)
deriving DecidableEq, Repr

/-- Description of a wire value as it appears in Go's
`UnmarshalTypeError.Value`. -/
def jvalDesc : Jval → String
  | .null => "null"
  | .bool _ => "bool"
  | .num lit => "number " ++ lit
  | .str _ => "string"
  | .arr _ => "array"
  | .obj _ => "object"

/-- Model of the syntax phase of `encoding/json.Unmarshal`: Go validates
the whole input with its scanner before decoding anything, so a document
is either rejected as malformed or fully converted to a `Jval`.  Trailing
non-whitespace after the top-level value is a syntax error, as in Go. -/
def parseJson (b : String) : Except JsonErr Jval :=
  match parseF (b.length + 1) (.value b.data) with
  | none => .error (.invalidJson b)
  | some (v, rest) =>
    match skipWs rest with
    | [] => .ok v
    | _ => .error (.invalidJson b)

example : parseJson "null" = .ok .null := rfl
example : parseJson "  42 " = .ok (.num "42") := rfl
example : parseJson "-0.5e+2" = .ok (.num "-0.5e+2") := rfl
example : parseJson "\"pres\\u0065nt\"" = .ok (.str "present") := rfl
example : parseJson "[true, \"a\", []]" = .ok (.arr [.bool true, .str "a", .arr []]) := rfl
example : parseJson "\x7b\"a\": 1, \"b\": \x7b\x7d\x7d" =
    .ok (.obj [("a", .num "1"), ("b", .obj [])]) := rfl
example : parseJson "\x7b\"a\":1" = .error (.invalidJson "\x7b\"a\":1") := rfl
example : parseJson "01" = .error (.invalidJson "01") := rfl
example : parseJson "" = .error (.invalidJson "") := rfl
example : parseJson "true x" = .error (.invalidJson "true x") := rfl

/-! ## The target-state enumeration and its codec -/

/-- TargetState defines an enum of values that determines a state of
installation.  In Go this is an `int` with `iota` constants; `present` is
the zero (default) value. -/
inductive TargetState where
  | present
  | absent
  | ignore
deriving DecidableEq, Repr

/-- TargetStatePresent is the default state. -/
def TargetStatePresent : TargetState := .present

/-- TargetStateAbsent sets the state of the item to absent. -/
def TargetStateAbsent : TargetState := .absent

/-- TargetStateIgnore is currently only internally used to mark items that
are present in the CES instance at hand but not mentioned in the
blueprint. -/
def TargetStateIgnore : TargetState := .ignore

/-- The Go `toString` map has entries only for Present and Absent; a Go
map lookup on a missing key (here: Ignore) yields the zero value of the
value type, the empty string. -/
def toString : TargetState → String
  | .present => "present"
  | .absent => "absent"
  | .ignore => ""

/-- The Go `toID` map sends "present" and "absent" to their enum values; a
lookup on any other key yields the zero value of `TargetState`, which is
`TargetStatePresent`. -/
def toID (s : String) : TargetState :=
  if s = "present" then .present
  else if s = "absent" then .absent
  else .present

/-- MarshalJSON marshals the enum as a quoted json string: it writes `"`,
then `toString[state]`, then `"`, and returns the buffer bytes together
with a nil error (the second component is always `none`, exactly as the
Go method always returns a nil error). -/
def TargetState.MarshalJSON (state : TargetState) : String × Option JsonErr :=
  ("\"" ++ toString state ++ "\"", none)

/-- Decoding a wire value into a fresh Go `string` variable: a JSON string
yields its contents; JSON `null` is a no-op on the zero value, leaving the
empty string; every other shape is an `UnmarshalTypeError`. -/
def goStringOfJval : Jval → Except JsonErr String
  | .str s => .ok s
  | .null => .ok ""
  | v => .error (.typeErr (jvalDesc v) "string")

/-- UnmarshalJSON unmarshals a quoted json string to the enum value: it
runs `json.Unmarshal(b, &j)` for a fresh string `j` (syntax check first,
then conversion), and on failure returns the `fmt.Errorf` error carrying
the raw bytes `b` while leaving `*state` untouched; on success it assigns
`toID[j]` (unknown text resolving to the zero value Present).  The first
component is the value of `*state` after the call, the second the returned
error. -/
def TargetState.UnmarshalJSON (state : TargetState) (b : String) :
    TargetState × Option JsonErr :=
  match parseJson b with
  | .error err => (state, some (.malformedEnum b err))
  | .ok v =>
    match goStringOfJval v with
    | .error err => (state, some (.malformedEnum b err))
    | .ok j => (toID j, none)

example : TargetState.UnmarshalJSON .absent "\"present\"" = (.present, none) := rfl
example : TargetState.UnmarshalJSON .present "\"absent\"" = (.absent, none) := rfl
example : TargetState.UnmarshalJSON .absent "\"whatever\"" = (.present, none) := rfl
example : (TargetState.UnmarshalJSON .absent "42").1 = .absent := rfl

/-! ## The general blueprint envelope and ParseBlueprint -/

/-- BlueprintApi is a string that contains a Blueprint API version
identifier. -/
abbrev BlueprintApi := String

/-- V1 is the classic version 1 API identifier. -/
def V1 : BlueprintApi := "v1"

/-- TestEmpty is a non-production, test-only API identifier. -/
def TestEmpty : BlueprintApi := "test/empty"

/-- GeneralBlueprint defines the minimum set to parse the blueprint API
version string: a single field `API` with json tag `blueprintApi`. -/
structure GeneralBlueprint where
  API : BlueprintApi
deriving DecidableEq, Repr

/-- Lower-case an ASCII letter, leaving everything else unchanged. -/
def lowerAscii (c : Char) : Char :=
  if 'A' ≤ c ∧ c ≤ 'Z' then Char.ofNat (c.toNat + 32) else c

/-- Case-insensitive comparison on the ASCII keys this schema uses,
modelling the `strings.EqualFold` fallback of Go's field matching. -/
def eqFold (a b : String) : Bool :=
  a.data.map lowerAscii == b.data.map lowerAscii

/-- Go's decoder matches object keys against field tags case-insensitively
(exact matches take precedence, but with a single field of this tag both
resolve to it). -/
def isApiKey (k : String) : Bool :=
  eqFold k "blueprintApi"

/-- Keep the first conversion error, as Go's decoder does with
`d.saveError`. -/
def keepFirst (e : Option JsonErr) (e1 : JsonErr) : Option JsonErr :=
  match e with
  | some _ => e
  | none => some e1

/-- Decoding the members of a JSON object into a `GeneralBlueprint`, in
wire order: a member whose key matches the `blueprintApi` tag assigns the
field when its value is a string, is a no-op when its value is `null`,
and otherwise saves an `UnmarshalTypeError` (decoding continues, keeping
the first error); all other members are skipped. -/
def gbFold : List (String × Jval) → String × Option JsonErr → String × Option JsonErr
  | [], st => st
  | (k, v) :: rest, (api, e) =>
    if isApiKey k then
      match v with
      | .str s => gbFold rest (s, e)
      | .null => gbFold rest (api, e)
      | w => gbFold rest (api, keepFirst e (.typeErr (jvalDesc w) "json.BlueprintApi"))
    else gbFold rest (api, e)

/-- Decoding a wire value into a fresh `GeneralBlueprint`: `null` is a
no-op on the zero value, an object is decoded member by member, and any
other shape is an `UnmarshalTypeError`. -/
def unmarshalGeneralBlueprint (v : Jval) : Except JsonErr GeneralBlueprint :=
  match v with
  | .null => .ok ⟨""⟩
  | .obj members =>
    match gbFold members ("", none) with
    | (api, none) => .ok ⟨api⟩
    | (_, some e) => .error e
  | w => .error (.typeErr (jvalDesc w) "json.GeneralBlueprint")

/-- Model of `json.Unmarshal(rawBlueprint, &preparsedBlueprint)` for a
fresh `GeneralBlueprint`: syntax validation of the whole input first, then
the structural decode. -/
def jsonUnmarshalGB (b : String) : Except JsonErr GeneralBlueprint :=
  match parseJson b with
  | .error e => .error e
  | .ok v => unmarshalGeneralBlueprint v

/-- The error returned by ParseBlueprint: `errors.Wrap(err, msg)` keeps
the original cause and attaches the message. -/
inductive BlueprintError where
  | wrap (msg : String) (cause : JsonErr)
deriving DecidableEq, Repr

/-- The wrapping message used by ParseBlueprint. -/
def parseBlueprintHint : String :=
  "could not parse blueprint. Please check the blueprint for validity"

/-- ParseBlueprint parses a given byte slice to a GeneralBlueprint so the
blueprint version can be determined.  On an unmarshalling error it returns
the zero-valued `GeneralBlueprint{}` literal together with the wrapped
error; otherwise the pre-parsed blueprint and a nil error.  The pair
mirrors Go's `(GeneralBlueprint, error)` return. -/
def ParseBlueprint (rawBlueprint : String) : GeneralBlueprint × Option BlueprintError :=
  match jsonUnmarshalGB rawBlueprint with
  | .error e => (⟨""⟩, some (.wrap parseBlueprintHint e))
  | .ok gb => (gb, none)

example : ParseBlueprint "\x7b\"blueprintApi\": \"v1\"\x7d" = (⟨"v1"⟩, none) := rfl
example : ParseBlueprint "\x7b\x7d" = (⟨""⟩, none) := rfl
example : ParseBlueprint "null" = (⟨""⟩, none) := rfl
example : (ParseBlueprint "\x7b\"blueprintApi\": 5\x7d").2.isSome = true := rfl
example : (ParseBlueprint "not json").2.isSome = true := rfl

/-! ## The version-1 document model and its decode -/

/-- Hexadecimal digit, for rendering control characters. -/
def hexDigit (n : Nat) : Char :=
  if n < 10 then Char.ofNat ('0'.toNat + n) else Char.ofNat ('a'.toNat + (n - 10))

/-- Escape one character of a JSON string being serialized. -/
def escChar (c : Char) : List Char :=
  if c = '"' then ['\\', '"']
  else if c = '\\' then ['\\', '\\']
  else if c.toNat < 0x20 then
    ['\\', 'u', '0', '0', hexDigit (c.toNat / 16), hexDigit (c.toNat % 16)]
  else [c]

/-- Serialize a string as a JSON string literal. -/
def renderString (s : String) : String :=
  String.mk ('"' :: (s.data.flatMap escChar) ++ ['"'])

/-- Serialize a JSON value back to bytes.  Inside a larger document Go
hands an unmarshaler the exact sub-slice of the input; this development
reconstructs those bytes from the parsed value (numbers kept their source
literal, and whitespace inside composite values is normalized away). -/
def render : Jval → String
  | .null => "null"
  | .bool true => "true"
  | .bool false => "false"
  | .num lit => lit
  | .str s => renderString s
  | .arr elems => "[" ++ String.intercalate "," (elems.attach.map fun e => render e.1) ++ "]"
  | .obj members => "\x7b" ++
      String.intercalate ","
        (members.attach.map fun m => renderString m.1.1 ++ ":" ++ render m.1.2) ++ "\x7d"
decreasing_by
  · rcases e with ⟨v, hv⟩
    have h := List.sizeOf_lt_of_mem hv
    simp at h ⊢
    omega
  · rcases m with ⟨⟨k, v⟩, hm⟩
    have h := List.sizeOf_lt_of_mem hm
    simp at h ⊢
    omega

/-- Decoding a wire value into a `TargetState` field inside a larger
document: Go calls the custom `UnmarshalJSON` with the value's raw bytes,
so the behaviour (and the raw bytes carried by the error) is that of
`TargetState.UnmarshalJSON` on those bytes. -/
def TargetState.unmarshalValue (v : Jval) : Except JsonErr TargetState :=
  match goStringOfJval v with
  | .error err => .error (.malformedEnum (render v) err)
  | .ok j => .ok (toID j)

/-- TargetDogu defines a Dogu, its version, and the installation state in
which it is supposed to be after a blueprint was applied.  Json tags:
`name`, `version`, `targetState`. -/
structure TargetDogu where
  Name : String
  Version : String
  TargetState : TargetState
deriving DecidableEq, Repr

/-- TargetPackage describes an operating system package, its version, and
the installation state in which it is supposed to be after a blueprint was
applied.  Json tags: `name`, `version`, `targetState`. -/
structure TargetPackage where
  Name : String
  Version : String
  TargetState : TargetState
deriving DecidableEq, Repr

/-- RegistryConfig is Go's `map[string]map[string]interface\x7b\x7d`,
modelled as an association list of association lists; a later duplicate
key overwrites the earlier entry, as in a Go map.  The uninterpreted
`interface\x7b\x7d` leaves keep their decoded wire value. -/
abbrev RegistryConfig := List (String × List (String × Jval))

/-- Insert into an association list with Go-map overwrite semantics. -/
def assocSet {α : Type} : List (String × α) → String → α → List (String × α)
  | [], k, v => [(k, v)]
  | (k1, v1) :: rest, k, v =>
    if k1 = k then (k, v) :: rest else (k1, v1) :: assocSet rest k v

/-- BlueprintV1 describes an abstraction of Cloudogu EcoSystem parts that
should be absent or present.  It embeds `GeneralBlueprint`, so the
`blueprintApi` member is decoded into the promoted `API` field. -/
structure BlueprintV1 where
  general : GeneralBlueprint
  ID : String
  CesAppVersion : String
  Dogus : List TargetDogu
  Packages : List TargetPackage
  RegistryConfig : json.RegistryConfig
  RegistryConfigAbsent : List String
  RegistryConfigEncrypted : json.RegistryConfig

/-- The zero value of `BlueprintV1` (fresh variable before decoding). -/
def zeroV1 : BlueprintV1 :=
  ⟨⟨""⟩, "", "", [], [], [], [], []⟩

/-- Decode the members of a dogu/package object, in wire order: `name` and
`version` behave like any string field (string assigns, null is a no-op,
otherwise a saved type error); `targetState` goes through the custom
`TargetState` unmarshaler; unknown members are skipped. -/
def doguFold : List (String × Jval) → TargetDogu × Option JsonErr →
    TargetDogu × Option JsonErr
  | [], st => st
  | (k, v) :: rest, (d, e) =>
    if eqFold k "name" then
      match v with
      | .str s => doguFold rest ({ d with Name := s }, e)
      | .null => doguFold rest (d, e)
      | w => doguFold rest (d, keepFirst e (.typeErr (jvalDesc w) "string"))
    else if eqFold k "version" then
      match v with
      | .str s => doguFold rest ({ d with Version := s }, e)
      | .null => doguFold rest (d, e)
      | w => doguFold rest (d, keepFirst e (.typeErr (jvalDesc w) "string"))
    else if eqFold k "targetState" then
      match TargetState.unmarshalValue v with
      | .ok s => doguFold rest ({ d with TargetState := s }, e)
      | .error err => doguFold rest (d, keepFirst e err)
    else doguFold rest (d, e)

/-- Decode one array element into a `TargetDogu`: an object is decoded
member-wise into a fresh zero value, `null` is a no-op on the zero value,
anything else is a type error (the slot keeps its zero value). -/
def decodeDoguElem (v : Jval) : TargetDogu × Option JsonErr :=
  match v with
  | .obj members => doguFold members (⟨"", "", .present⟩, none)
  | .null => (⟨"", "", .present⟩, none)
  | w => (⟨"", "", .present⟩, some (.typeErr (jvalDesc w) "json.TargetDogu"))

/-- Decode a JSON array into a dogu slice, keeping the first error while
decoding every element, as Go does. -/
def decodeDoguArr : List Jval → List TargetDogu × Option JsonErr
  | [] => ([], none)
  | v :: rest =>
    let (d, e) := decodeDoguElem v
    let (ds, e1) := decodeDoguArr rest
    (d :: ds, match e with | some err => some err | none => e1)

/-- Package elements decode exactly like dogu elements. -/
def decodePackageElem (v : Jval) : TargetPackage × Option JsonErr :=
  match v with
  | .obj members =>
    match doguFold members (⟨"", "", .present⟩, none) with
    | (d, e) => (⟨d.Name, d.Version, d.TargetState⟩, e)
  | .null => (⟨"", "", .present⟩, none)
  | w => (⟨"", "", .present⟩, some (.typeErr (jvalDesc w) "json.TargetPackage"))

/-- Decode a JSON array into a package slice. -/
def decodePackageArr : List Jval → List TargetPackage × Option JsonErr
  | [] => ([], none)
  | v :: rest =>
    let (d, e) := decodePackageElem v
    let (ds, e1) := decodePackageArr rest
    (d :: ds, match e with | some err => some err | none => e1)

/-- Decode a JSON object into Go's `map[string]interface\x7b\x7d`: every
member value decodes successfully into the empty interface. -/
def decodeInnerMap (members : List (String × Jval)) : List (String × Jval) :=
  members.foldl (fun m kv => assocSet m kv.1 kv.2) []

/-- Decode the members of a JSON object into a `RegistryConfig` map,
starting from the current value of the map (Go decodes into an existing
map, merging entries). -/
def regFold : List (String × Jval) → RegistryConfig × Option JsonErr →
    RegistryConfig × Option JsonErr
  | [], st => st
  | (k, v) :: rest, (m, e) =>
    match v with
    | .obj ms => regFold rest (assocSet m k (decodeInnerMap ms), e)
    | .null => regFold rest (assocSet m k [], e)
    | w => regFold rest (m, keepFirst e (.typeErr (jvalDesc w) "map[string]interface \x7b\x7d"))

/-- Decode a JSON array into a `[]string`: string elements assign, `null`
elements leave the zero value (empty string), everything else is a saved
type error. -/
def decodeStringArr : List Jval → List String × Option JsonErr
  | [] => ([], none)
  | v :: rest =>
    let (s, e) :=
      match v with
      | .str s => (s, (none : Option JsonErr))
      | .null => ("", none)
      | w => ("", some (.typeErr (jvalDesc w) "string"))
    let (ss, e1) := decodeStringArr rest
    (s :: ss, match e with | some err => some err | none => e1)

/-- Decode the members of the top-level object into a `BlueprintV1`, in
wire order.  Keys are matched case-insensitively against the json tags
(`blueprintApi` via the embedded `GeneralBlueprint`, `blueprintId`,
`cesappVersion`, `dogus`, `packages`, `registryConfig`,
`registryConfigAbsent`, `registryConfigEncrypted`); unknown members are
skipped; `null` values for slice and map fields reset them to their zero
value; the first conversion error is kept while decoding continues. -/
def v1Fold : List (String × Jval) → BlueprintV1 × Option JsonErr →
    BlueprintV1 × Option JsonErr
  | [], st => st
  | (k, v) :: rest, (bp, e) =>
    if eqFold k "blueprintApi" then
      match v with
      | .str s => v1Fold rest ({ bp with general := ⟨s⟩ }, e)
      | .null => v1Fold rest (bp, e)
      | w => v1Fold rest (bp, keepFirst e (.typeErr (jvalDesc w) "json.BlueprintApi"))
    else if eqFold k "blueprintId" then
      match v with
      | .str s => v1Fold rest ({ bp with ID := s }, e)
      | .null => v1Fold rest (bp, e)
      | w => v1Fold rest (bp, keepFirst e (.typeErr (jvalDesc w) "string"))
    else if eqFold k "cesappVersion" then
      match v with
      | .str s => v1Fold rest ({ bp with CesAppVersion := s }, e)
      | .null => v1Fold rest (bp, e)
      | w => v1Fold rest (bp, keepFirst e (.typeErr (jvalDesc w) "string"))
    else if eqFold k "dogus" then
      match v with
      | .arr xs =>
        match decodeDoguArr xs with
        | (ds, e1) => v1Fold rest ({ bp with Dogus := ds },
            match e with | some err => some err | none => e1)
      | .null => v1Fold rest ({ bp with Dogus := [] }, e)
      | w => v1Fold rest (bp, keepFirst e (.typeErr (jvalDesc w) "[]json.TargetDogu"))
    else if eqFold k "packages" then
      match v with
      | .arr xs =>
        match decodePackageArr xs with
        | (ps, e1) => v1Fold rest ({ bp with Packages := ps },
            match e with | some err => some err | none => e1)
      | .null => v1Fold rest ({ bp with Packages := [] }, e)
      | w => v1Fold rest (bp, keepFirst e (.typeErr (jvalDesc w) "[]json.TargetPackage"))
    else if eqFold k "registryConfig" then
      match v with
      | .obj ms =>
        match regFold ms (bp.RegistryConfig, none) with
        | (m, e1) => v1Fold rest ({ bp with RegistryConfig := m },
            match e with | some err => some err | none => e1)
      | .null => v1Fold rest ({ bp with RegistryConfig := [] }, e)
      | w => v1Fold rest (bp, keepFirst e (.typeErr (jvalDesc w) "json.RegistryConfig"))
    else if eqFold k "registryConfigAbsent" then
      match v with
      | .arr xs =>
        match decodeStringArr xs with
        | (ss, e1) => v1Fold rest ({ bp with RegistryConfigAbsent := ss },
            match e with | some err => some err | none => e1)
      | .null => v1Fold rest ({ bp with RegistryConfigAbsent := [] }, e)
      | w => v1Fold rest (bp, keepFirst e (.typeErr (jvalDesc w) "[]string"))
    else if eqFold k "registryConfigEncrypted" then
      match v with
      | .obj ms =>
        match regFold ms (bp.RegistryConfigEncrypted, none) with
        | (m, e1) => v1Fold rest ({ bp with RegistryConfigEncrypted := m },
            match e with | some err => some err | none => e1)
      | .null => v1Fold rest ({ bp with RegistryConfigEncrypted := [] }, e)
      | w => v1Fold rest (bp, keepFirst e (.typeErr (jvalDesc w) "json.RegistryConfig"))
    else v1Fold rest (bp, e)

/-- Model of `json.Unmarshal(b, &bp)` for a fresh `BlueprintV1`: syntax
validation first, then the structural decode (`null` is a no-op on the
zero value, an object decodes member-wise, anything else is a type
error).  The pair carries the decoded value and the returned error. -/
def unmarshalBlueprintV1 (b : String) : BlueprintV1 × Option JsonErr :=
  match parseJson b with
  | .error e => (zeroV1, some e)
  | .ok .null => (zeroV1, none)
  | .ok (.obj members) => v1Fold members (zeroV1, none)
  | .ok w => (zeroV1, some (.typeErr (jvalDesc w) "json.BlueprintV1"))

example :
    unmarshalBlueprintV1
      "\x7b\"blueprintApi\":\"v1\",\"blueprintId\":\"b\",\"cesappVersion\":\"6.0.0\",\"dogus\":[\x7b\"name\":\"official/nginx\",\"version\":\"1.2.3\",\"targetState\":\"absent\"\x7d]\x7d" =
    (⟨⟨"v1"⟩, "b", "6.0.0", [⟨"official/nginx", "1.2.3", .absent⟩], [], [], [], []⟩, none) := rfl

/-! ## Lemmas about the envelope decode -/

/-- Wire values that a Go string field accepts without error: strings
(assigned) and `null` (a no-op). -/
def isStrOrNull : Jval → Bool
  | .str _ => true
  | .null => true
  | _ => false

/-- An object's member list makes the `GeneralBlueprint` decode fail
exactly when some member matches the `blueprintApi` tag with a value that
is neither a string nor `null`. -/
def hasBadApi (l : List (String × Jval)) : Bool :=
  l.any fun kv => isApiKey kv.1 && !isStrOrNull kv.2

theorem keepFirst_ne_none (e : Option JsonErr) (e1 : JsonErr) :
    keepFirst e e1 ≠ none := by
  cases e <;> simp [keepFirst]

theorem gbFold_skip (l : List (String × Jval)) (st : String × Option JsonErr)
    (h : l.all (fun kv => !isApiKey kv.1) = true) : gbFold l st = st := by
  induction l generalizing st with
  | nil => rfl
  | cons kv rest ih =>
    obtain ⟨k, v⟩ := kv
    obtain ⟨api, e⟩ := st
    simp only [List.all_cons, Bool.and_eq_true, Bool.not_eq_true'] at h
    simp only [gbFold, h.1, Bool.false_eq_true, if_false]
    exact ih _ h.2

theorem gbFold_append (l1 l2 : List (String × Jval)) (st : String × Option JsonErr) :
    gbFold (l1 ++ l2) st = gbFold l2 (gbFold l1 st) := by
  induction l1 generalizing st with
  | nil => rfl
  | cons kv rest ih =>
    obtain ⟨k, v⟩ := kv
    obtain ⟨api, e⟩ := st
    simp only [List.cons_append, gbFold]
    by_cases h : isApiKey k = true
    · simp only [h, if_true]
      cases v <;> exact ih _
    · simp only [h, if_false]
      exact ih _

theorem gbFold_none_iff (l : List (String × Jval)) (api : String) (e : Option JsonErr) :
    (gbFold l (api, e)).2 = none ↔ (e = none ∧ hasBadApi l = false) := by
  induction l generalizing api e with
  | nil => simp [gbFold, hasBadApi]
  | cons kv rest ih =>
    obtain ⟨k, v⟩ := kv
    by_cases h : isApiKey k = true
    · cases v with
      | str s => simp [gbFold, hasBadApi, h, ih, isStrOrNull, List.any_cons]
      | null => simp [gbFold, hasBadApi, h, ih, isStrOrNull, List.any_cons]
      | bool b =>
        cases e <;>
          simp [gbFold, hasBadApi, h, ih, isStrOrNull, List.any_cons, keepFirst]
      | num lit =>
        cases e <;>
          simp [gbFold, hasBadApi, h, ih, isStrOrNull, List.any_cons, keepFirst]
      | arr xs =>
        cases e <;>
          simp [gbFold, hasBadApi, h, ih, isStrOrNull, List.any_cons, keepFirst]
      | obj ms =>
        cases e <;>
          simp [gbFold, hasBadApi, h, ih, isStrOrNull, List.any_cons, keepFirst]
    · simp [gbFold, hasBadApi, h, ih, List.any_cons]

/-- Decoding a document whose top-level object carries exactly one member
matching the `blueprintApi` tag, a string `s` under the exact key
`blueprintApi`: the parse succeeds and extracts `s`. -/
theorem parseBlueprintUniqueApi (b : String) (pre post : List (String × Jval)) (s : String)
    (hp : parseJson b = .ok (.obj (pre ++ ("blueprintApi", .str s) :: post)))
    (hpre : pre.all (fun kv => !isApiKey kv.1) = true)
    (hpost : post.all (fun kv => !isApiKey kv.1) = true) :
    ParseBlueprint b = (⟨s⟩, none) := by
  have hkey : isApiKey "blueprintApi" = true := rfl
  have h1 : gbFold (pre ++ ("blueprintApi", Jval.str s) :: post) ("", none) = (s, none) := by
    rw [gbFold_append, gbFold_skip _ _ hpre]
    simp only [gbFold, hkey, if_true]
    exact gbFold_skip _ _ hpost
  unfold ParseBlueprint jsonUnmarshalGB
  rw [hp]
  simp only [unmarshalGeneralBlueprint, h1]

/-! ## Claims -/

/-- C1.  The claim says encoding `TargetStateIgnore` must not be a
successful nil-error result carrying a wire string other than
"present"/"absent".  The code violates this: `MarshalJSON` looks Ignore up
in the `toString` map, the lookup misses and yields the zero-valued empty
string, and the method returns the bytes `""` (a quoted empty string)
together with a nil error — a silent success with wrong output.  This
theorem evaluates the code at the failing input. -/
theorem marshalIgnoreSilentlySucceeds :
    TargetState.MarshalJSON TargetStateIgnore = ("\"\"", none) := rfl

/-- C2, counterexample.  The claim says the `API` field is non-empty after
every successful parse.  Parsing the well-formed document `\x7b\x7d` (no
`blueprintApi` member) succeeds with a nil error and an empty `API`,
refuting the claim. -/
theorem parseBlueprintEmptyObjEmptyApi :
    ParseBlueprint "\x7b\x7d" = (⟨""⟩, none) := rfl

/-- C2, amended.  After a successful parse the `API` field holds the
declared `blueprintApi` string and may be empty: for a document whose
top-level object declares `blueprintApi` exactly once, with string value
`s`, the parse succeeds and `API` is empty exactly when `s` is empty. -/
theorem apiEmptyIffDeclaredEmpty (b : String) (pre post : List (String × Jval)) (s : String)
    (hp : parseJson b = .ok (.obj (pre ++ ("blueprintApi", .str s) :: post)))
    (hpre : pre.all (fun kv => !isApiKey kv.1) = true)
    (hpost : post.all (fun kv => !isApiKey kv.1) = true) :
    (ParseBlueprint b).2 = none ∧ ((ParseBlueprint b).1.API = "" ↔ s = "") := by
  rw [parseBlueprintUniqueApi b pre post s hp hpre hpost]
  exact ⟨rfl, Iff.rfl⟩

/-- Witness for C2's amended theorem at a concrete document declaring the
non-empty identifier "v1". -/
theorem apiEmptyIffDeclaredEmptyWitness :
    (ParseBlueprint "\x7b\"blueprintApi\":\"v1\"\x7d").2 = none ∧
    ((ParseBlueprint "\x7b\"blueprintApi\":\"v1\"\x7d").1.API = "" ↔ "v1" = "") :=
  apiEmptyIffDeclaredEmpty "\x7b\"blueprintApi\":\"v1\"\x7d" [] [] "v1" rfl rfl rfl

/-- C3.  Round-trip of the target-state codec: for every `TargetState`
except Ignore, `MarshalJSON` returns its bytes with a nil error, and
`UnmarshalJSON` applied to those bytes (whatever the previous value of the
target) yields the original value with no error. -/
theorem targetStateRoundTrip (s s0 : TargetState) (h : s ≠ TargetStateIgnore) :
    (TargetState.MarshalJSON s).2 = none ∧
    TargetState.UnmarshalJSON s0 (TargetState.MarshalJSON s).1 = (s, none) := by
  cases s with
  | present => exact ⟨rfl, rfl⟩
  | absent => exact ⟨rfl, rfl⟩
  | ignore => exact absurd rfl h

/-- Witness for C3 at Absent (decoded over a different previous value). -/
theorem targetStateRoundTripWitness :
    (TargetState.MarshalJSON .absent).2 = none ∧
    TargetState.UnmarshalJSON .present (TargetState.MarshalJSON .absent).1 =
      (.absent, none) :=
  targetStateRoundTrip .absent .present (by decide)

/-- C4.  Decoding a JSON string into a `TargetState` maps exactly
"present" to Present and exactly "absent" to Absent (case-sensitive), and
every other string — the empty string, "PRESENT", or any unrecognized
word — yields Present with no error reported: for any bytes that parse to
the JSON string `j`, `UnmarshalJSON` succeeds with exactly that mapping. -/
theorem unmarshalStringMapping (s0 : TargetState) (b j : String)
    (h : parseJson b = .ok (.str j)) :
    TargetState.UnmarshalJSON s0 b =
      (if j = "present" then .present else if j = "absent" then .absent else .present,
        none) := by
  unfold TargetState.UnmarshalJSON
  rw [h]
  rfl

/-- Witness for C4 at the unrecognized word "PRESENT" (wrong case), which
decodes to Present with no error. -/
theorem unmarshalStringMappingWitness :
    TargetState.UnmarshalJSON .absent "\"PRESENT\"" =
      (if "PRESENT" = "present" then .present
        else if "PRESENT" = "absent" then .absent else .present, none) :=
  unmarshalStringMapping .absent "\"PRESENT\"" "PRESENT" rfl

/-- C5, counterexample.  The claim says decoding fails if and only if the
supplied wire value is not a JSON string.  The input `null` is well-formed
JSON and not a JSON string, yet `UnmarshalJSON` succeeds with a nil error
(Go's decoder treats `null` as a no-op on the string variable, and the
`toID` lookup of the empty string yields Present, overwriting the
target). -/
theorem unmarshalNullSucceeds :
    TargetState.UnmarshalJSON .absent "null" = (.present, none) ∧
    parseJson "null" = .ok .null :=
  ⟨rfl, rfl⟩

/-- C5, amended.  `UnmarshalJSON` fails exactly when the supplied bytes
are neither a well-formed JSON string nor the JSON literal `null`; in that
case it returns a MalformedEnum error carrying the offending raw bytes and
leaves the target value unassigned (the failing branch returns before the
assignment).  JSON `null` additionally decodes with no error, resolving to
Present. -/
theorem unmarshalFailureCharacterization (s0 : TargetState) (b : String) :
    ((TargetState.UnmarshalJSON s0 b).2 = none ↔
      (∃ j, parseJson b = .ok (.str j)) ∨ parseJson b = .ok .null)
    ∧ (∀ e, (TargetState.UnmarshalJSON s0 b).2 = some e →
        (TargetState.UnmarshalJSON s0 b).1 = s0 ∧ ∃ c, e = .malformedEnum b c) := by
  unfold TargetState.UnmarshalJSON
  cases hp : parseJson b with
  | error err => simp [hp, goStringOfJval]
  | ok v => cases v <;> simp [hp, goStringOfJval]

/-- Witness for C5's amended theorem at the non-string wire value `42`:
the failure leaves the previous value Absent in place and the error embeds
the raw bytes. -/
theorem unmarshalFailureCharacterizationWitness :
    (TargetState.UnmarshalJSON .absent "42").1 = .absent ∧
    ∃ c, (JsonErr.malformedEnum "42" (.typeErr "number 42" "string")) =
      .malformedEnum "42" c :=
  (unmarshalFailureCharacterization .absent "42").2
    (.malformedEnum "42" (.typeErr "number 42" "string")) rfl

/-- C6, counterexample.  The claim says `ParseBlueprint` fails exactly
when the input is not well-formed JSON or the `blueprintApi` field is
present but not a string.  The input `42` is well-formed JSON and contains
no `blueprintApi` field at all, yet `ParseBlueprint` fails (Go cannot
unmarshal a number into the `GeneralBlueprint` struct), refuting the
"exactly". -/
theorem parseBlueprintNumberFails :
    parseJson "42" = .ok (.num "42") ∧
    ParseBlueprint "42" =
      (⟨""⟩, some (.wrap parseBlueprintHint (.typeErr "number 42" "json.GeneralBlueprint"))) :=
  ⟨rfl, rfl⟩

/-- Spec-side failure condition for the amended C6, in the amended claim's
words: the input is malformed JSON, or its top-level value is neither an
object nor `null`, or some member matching the `blueprintApi` tag holds a
value that is neither a string nor `null`. -/
def parseBlueprintFailsSpec (b : String) : Bool :=
  match parseJson b with
  | .error _ => true
  | .ok .null => false
  | .ok (.obj members) => hasBadApi members
  | .ok _ => true

/-- C6, amended.  `ParseBlueprint` fails exactly under
`parseBlueprintFailsSpec` (malformed input, a non-object non-null
top-level value, or a `blueprintApi` member that is neither string nor
null), and every returned error wraps the underlying structural decode
failure — the original cause, preserved intact — together with the hint to
check the blueprint for validity. -/
theorem parseBlueprintFailureCharacterization (b : String) :
    ((ParseBlueprint b).2.isSome = parseBlueprintFailsSpec b)
    ∧ (∀ e, (ParseBlueprint b).2 = some e →
        ∃ c, e = .wrap parseBlueprintHint c ∧ jsonUnmarshalGB b = .error c) := by
  unfold ParseBlueprint jsonUnmarshalGB parseBlueprintFailsSpec
  cases hp : parseJson b with
  | error err => simp
  | ok v =>
    cases v with
    | null => simp [unmarshalGeneralBlueprint]
    | bool x => simp [unmarshalGeneralBlueprint]
    | num lit => simp [unmarshalGeneralBlueprint]
    | str s => simp [unmarshalGeneralBlueprint]
    | arr xs => simp [unmarshalGeneralBlueprint]
    | obj members =>
      have hiff := gbFold_none_iff members "" none
      cases hg : gbFold members ("", none) with
      | mk api eo =>
        rw [hg] at hiff
        cases eo with
        | none =>
          simp only [unmarshalGeneralBlueprint, hg]
          simp at hiff ⊢
          exact hiff
        | some er =>
          simp only [unmarshalGeneralBlueprint, hg]
          simp at hiff ⊢
          exact hiff

/-- Witness for C6's amended theorem at a document whose `blueprintApi`
member holds the number `4`: the returned error wraps the underlying type
error with the hint. -/
theorem parseBlueprintFailureCharacterizationWitness :
    ∃ c, (BlueprintError.wrap parseBlueprintHint (.typeErr "number 4" "json.BlueprintApi")) =
        .wrap parseBlueprintHint c ∧
      jsonUnmarshalGB "\x7b\"blueprintApi\":4\x7d" = .error c :=
  (parseBlueprintFailureCharacterization "\x7b\"blueprintApi\":4\x7d").2
    (.wrap parseBlueprintHint (.typeErr "number 4" "json.BlueprintApi")) rfl

/-- C7.  For a well-formed JSON object whose `blueprintApi` key holds the
string `s` (its only member matching that tag), `ParseBlueprint` succeeds
and returns a `GeneralBlueprint` with `API = s`, regardless of what other
members the object contains and regardless of their shapes. -/
theorem parseBlueprintExtractsApi (b : String) (pre post : List (String × Jval)) (s : String)
    (hp : parseJson b = .ok (.obj (pre ++ ("blueprintApi", .str s) :: post)))
    (hpre : pre.all (fun kv => !isApiKey kv.1) = true)
    (hpost : post.all (fun kv => !isApiKey kv.1) = true) :
    ParseBlueprint b = (⟨s⟩, none) :=
  parseBlueprintUniqueApi b pre post s hp hpre hpost

/-- Witness for C7 at a document with an unrelated sibling member of
arbitrary shape next to `blueprintApi = "v1"`. -/
theorem parseBlueprintExtractsApiWitness :
    ParseBlueprint "\x7b\"blueprintApi\":\"v1\",\"x\":[1,true]\x7d" = (⟨"v1"⟩, none) :=
  parseBlueprintExtractsApi "\x7b\"blueprintApi\":\"v1\",\"x\":[1,true]\x7d"
    [] [("x", .arr [.num "1", .bool true])] "v1" rfl rfl rfl

/-- C8.  `ParseBlueprint` applied to a well-formed JSON object none of
whose members matches the `blueprintApi` tag succeeds without error and
returns a `GeneralBlueprint` whose `API` field is the empty string. -/
theorem parseBlueprintNoApiKey (b : String) (members : List (String × Jval))
    (hp : parseJson b = .ok (.obj members))
    (hm : members.all (fun kv => !isApiKey kv.1) = true) :
    ParseBlueprint b = (⟨""⟩, none) := by
  unfold ParseBlueprint jsonUnmarshalGB
  rw [hp]
  simp only [unmarshalGeneralBlueprint, gbFold_skip _ _ hm]

/-- Witness for C8 at the input `\x7b\x7d` named by the claim. -/
theorem parseBlueprintNoApiKeyWitness :
    ParseBlueprint "\x7b\x7d" = (⟨""⟩, none) :=
  parseBlueprintNoApiKey "\x7b\x7d" [] rfl rfl

/-- C9.  Decoding a full V1 document fills omitted optional fields with
their documented defaults: a dogu entry without a `targetState` member
decodes to a `TargetDogu` with TargetState Present, and a document
omitting `dogus` and `packages` decodes without error to empty sequences
for both. -/
theorem blueprintV1Defaults :
    unmarshalBlueprintV1
        "\x7b\"blueprintApi\":\"v1\",\"blueprintId\":\"blueprint-1\",\"cesappVersion\":\"6.0.0\",\"dogus\":[\x7b\"name\":\"official/nginx\",\"version\":\"1.2.3\"\x7d]\x7d" =
      (⟨⟨"v1"⟩, "blueprint-1", "6.0.0",
          [⟨"official/nginx", "1.2.3", TargetStatePresent⟩], [], [], [], []⟩, none)
    ∧ unmarshalBlueprintV1
        "\x7b\"blueprintApi\":\"v1\",\"blueprintId\":\"blueprint-1\",\"cesappVersion\":\"6.0.0\"\x7d" =
      (⟨⟨"v1"⟩, "blueprint-1", "6.0.0", [], [], [], [], []⟩, none) :=
  ⟨rfl, rfl⟩

/-- C10.  Atomicity of version discovery on failure: whenever
`ParseBlueprint` returns a non-nil error, the `GeneralBlueprint` it
returns is exactly the zero value (the error branch returns the
`GeneralBlueprint\x7b\x7d` literal, never the partially populated
value). -/
theorem parseBlueprintErrorZeroValue (b : String)
    (h : (ParseBlueprint b).2 ≠ none) : (ParseBlueprint b).1 = ⟨""⟩ := by
  unfold ParseBlueprint at *
  cases hj : jsonUnmarshalGB b with
  | error e => simp [hj]
  | ok gb =>
    rw [hj] at h
    simp at h

/-- Witness for C10 at a malformed input. -/
theorem parseBlueprintErrorZeroValueWitness :
    (ParseBlueprint "not a blueprint").1 = ⟨""⟩ :=
  parseBlueprintErrorZeroValue "not a blueprint" (by decide)

end json
